import Mathlib

/-!
Verification of the OxidBoy Game Boy emulator core: a shallow embedding of
the register file (registers.rs), the ALU and step logic of the CPU
interpreter (cpu.rs), and the cartridge mappers (cartridge.rs), with
theorems settling the spec claims about them.

Machine integers are embedded as plain naturals: 8-bit quantities carry the
invariant of being below 256 and 16-bit quantities below 65536, and the
operations make wraparound explicit with percent 256 / percent 65536 at the
points where the Rust code uses wrapping arithmetic or integer casts.
-/

/-- Console model variants, modelled from their use in the match inside
Register::power_up (the defining module terms.rs is not among the sources). -/
inductive Term
  | GB
  | GBP
  | GBC
  | SGB
deriving DecidableEq

/-- The CPU register file, from registers.rs (struct Register). -/
structure Register where
  a_reg : Nat
  f_reg : Nat
  b_reg : Nat
  c_reg : Nat
  d_reg : Nat
  e_reg : Nat
  h_reg : Nat
  l_reg : Nat
  stack_pointer : Nat
  program_counter : Nat
deriving DecidableEq

/-- A register file with every field zero; base point for concrete test states. -/
def Register.zero : Register :=
  { a_reg := 0, f_reg := 0, b_reg := 0, c_reg := 0, d_reg := 0, e_reg := 0
  , h_reg := 0, l_reg := 0, stack_pointer := 0, program_counter := 0 }

/-- Flag bits of the F register, from registers.rs (enum Flags). -/
inductive Flags
  | ZeroFlag
  | SubtractionFlag
  | HalfCarryFlag
  | CarryFlag
deriving DecidableEq

/-- Flags::orgin: the discriminant value of each flag (its bit mask). -/
def Flags.orgin : Flags → Nat
  | .ZeroFlag => 0x80
  | .SubtractionFlag => 0x40
  | .HalfCarryFlag => 0x20
  | .CarryFlag => 0x10

/-- Flags::inverse: the bitwise complement of the mask within a byte
(the source computes the u8 complement of Flags::orgin). -/
def Flags.inverse (f : Flags) : Nat :=
  f.orgin ^^^ 0xFF

/-- Register::get_flag: a flag is read as the test of its mask bit in F. -/
def Register.get_flag (r : Register) (f : Flags) : Bool :=
  r.f_reg &&& f.orgin != 0

/-- Register::set_flag: a flag is written by or-ing the mask in or and-ing
its complement out. -/
def Register.set_flag (r : Register) (f : Flags) (v : Bool) : Register :=
  if v then { r with f_reg := r.f_reg ||| f.orgin }
  else { r with f_reg := r.f_reg &&& f.inverse }

/-- Register::parse_af: A as the upper byte, F as the lower byte. -/
def Register.parse_af (r : Register) : Nat :=
  (r.a_reg <<< 8) ||| r.f_reg

/-- Register::parse_bc. -/
def Register.parse_bc (r : Register) : Nat :=
  (r.b_reg <<< 8) ||| r.c_reg

/-- Register::parse_de. -/
def Register.parse_de (r : Register) : Nat :=
  (r.d_reg <<< 8) ||| r.e_reg

/-- Register::parse_hl. -/
def Register.parse_hl (r : Register) : Nat :=
  (r.h_reg <<< 8) ||| r.l_reg

/-- Register::set_af: the upper byte goes to A (u8 cast of the shifted
word), and F receives the word masked with 0x00F0, forcing its low nibble
to zero. -/
def Register.set_af (r : Register) (reg : Nat) : Register :=
  { r with a_reg := (reg >>> 8) % 256, f_reg := reg &&& 0x00F0 }

/-- Register::set_bc. -/
def Register.set_bc (r : Register) (reg : Nat) : Register :=
  { r with b_reg := (reg >>> 8) % 256, c_reg := reg &&& 0x00FF }

/-- Register::set_de. -/
def Register.set_de (r : Register) (reg : Nat) : Register :=
  { r with d_reg := (reg >>> 8) % 256, e_reg := reg &&& 0x00FF }

/-- Register::set_hl. -/
def Register.set_hl (r : Register) (reg : Nat) : Register :=
  { r with h_reg := (reg >>> 8) % 256, l_reg := reg &&& 0x00FF }

/-- Register::power_up: console-model-dependent initial accumulator, fixed
initial values for the other registers, program counter 0x0100.  The source
assigns the literal 0xFFFFE to the 16-bit stack pointer; the u16 truncation
of that literal (0xFFFFE mod 65536 = 0xFFFE) is made explicit here. -/
def Register.power_up (term : Term) : Register :=
  { a_reg :=
      match term with
      | .GB => 0x01
      | .GBP => 0xFF
      | .GBC => 0x11
      | .SGB => 0x01
  , f_reg := 0xB0
  , b_reg := 0x00
  , c_reg := 0x13
  , d_reg := 0x00
  , e_reg := 0xD8
  , h_reg := 0x01
  , l_reg := 0x4D
  , program_counter := 0x0100
  , stack_pointer := 0xFFFFE % 0x10000 }

/-- Cpu::alu_add: add value to the accumulator (the source method acts on
self.reg); sets Carry from the widened sum exceeding 0xFF, HalfCarry from
the low nibbles, clears Subtraction, sets Zero from the wrapped result. -/
def Register.alu_add (r : Register) (value : Nat) : Register :=
  let a := r.a_reg
  let res := (a + value) % 256
  let r1 := r.set_flag .CarryFlag (decide (a + value > 0xFF))
  let r2 := r1.set_flag .HalfCarryFlag (decide ((a &&& 0x0F) + (value &&& 0x0F) > 0x0F))
  let r3 := r2.set_flag .SubtractionFlag false
  let r4 := r3.set_flag .ZeroFlag (decide (res = 0x00))
  { r4 with a_reg := res }

/-- Cpu::alu_sub: subtract value from the accumulator with u8 wrapping;
Carry from the widened comparison, HalfCarry from the low nibbles, sets
Subtraction, Zero from the wrapped result. -/
def Register.alu_sub (r : Register) (value : Nat) : Register :=
  let a := r.a_reg
  let res := (a + 0x100 - value % 0x100) % 0x100
  let r1 := r.set_flag .CarryFlag (decide (a < value))
  let r2 := r1.set_flag .HalfCarryFlag (decide ((a &&& 0x0F) < (value &&& 0x0F)))
  let r3 := r2.set_flag .SubtractionFlag true
  let r4 := r3.set_flag .ZeroFlag (decide (res = 0x00))
  { r4 with a_reg := res }

/-- Cpu::alu_cp: save the accumulator, run alu_sub, restore the accumulator. -/
def Register.alu_cp (r : Register) (value : Nat) : Register :=
  let saved := r.a_reg
  let s := r.alu_sub value
  { s with a_reg := saved }

/-- The u16 value of a byte reinterpreted as a signed 8-bit integer
(the source casts the immediate byte through i8 and i16 to u16). -/
def signed8_as_u16 (d : Nat) : Nat :=
  if d < 0x80 then d else 0xFF00 ||| d

/-- Cpu::alu_add_sp: add a signed immediate byte d (fetched by imm(), which
post-increments the program counter) to the stack pointer.  The source's
HalfCarry comparison bound is written 0x00FF, exactly as in cpu.rs line 185. -/
def Register.alu_add_sp (r : Register) (d : Nat) : Register :=
  let a := r.stack_pointer
  let b := signed8_as_u16 d
  let r0 := { r with program_counter := (r.program_counter + 1) % 0x10000 }
  let r1 := r0.set_flag .CarryFlag (decide ((a &&& 0x00FF) + (b &&& 0x00FF) > 0x00FF))
  let r2 := r1.set_flag .HalfCarryFlag (decide ((a &&& 0x000F) + (b &&& 0x000F) > 0x00FF))
  let r3 := r2.set_flag .SubtractionFlag false
  let r4 := r3.set_flag .ZeroFlag false
  { r4 with stack_pointer := (a + b) % 0x10000 }

/-- The opcode 0xF8 arm of Cpu::ex (LD HL, SP + d8): the same signed-byte
addition but with HalfCarry bound 0x000F and the result stored to HL. -/
def Register.ld_hl_sp (r : Register) (d : Nat) : Register :=
  let a := r.stack_pointer
  let b := signed8_as_u16 d
  let r0 := { r with program_counter := (r.program_counter + 1) % 0x10000 }
  let r1 := r0.set_flag .CarryFlag (decide ((a &&& 0x00FF) + (b &&& 0x00FF) > 0x00FF))
  let r2 := r1.set_flag .HalfCarryFlag (decide ((a &&& 0x000F) + (b &&& 0x000F) > 0x000F))
  let r3 := r2.set_flag .SubtractionFlag false
  let r4 := r3.set_flag .ZeroFlag false
  r4.set_hl ((a + b) % 0x10000)

/-- Byte-level view of the flag updates performed by alu_add: Carry, then
HalfCarry, then Subtraction := false, then Zero, in source order. -/
def addFlagBytes (f : Nat) (c h z : Bool) : Nat :=
  let f1 := if c then f ||| 0x10 else f &&& (0x10 ^^^ 0xFF)
  let f2 := if h then f1 ||| 0x20 else f1 &&& (0x20 ^^^ 0xFF)
  let f3 := f2 &&& (0x40 ^^^ 0xFF)
  if z then f3 ||| 0x80 else f3 &&& (0x80 ^^^ 0xFF)

/-- The fixed per-opcode machine-cycle table OP_CYCLES from cpu.rs. -/
def OP_CYCLES : List Nat :=
  [ 1, 3, 2, 2, 1, 1, 2, 1, 5, 2, 2, 2, 1, 1, 2, 1
  , 0, 3, 2, 2, 1, 1, 2, 1, 3, 2, 2, 2, 1, 1, 2, 1
  , 2, 3, 2, 2, 1, 1, 2, 1, 2, 2, 2, 2, 1, 1, 2, 1
  , 2, 3, 2, 2, 3, 3, 3, 1, 2, 2, 2, 2, 1, 1, 2, 1
  , 1, 1, 1, 1, 1, 1, 2, 1, 1, 1, 1, 1, 1, 1, 2, 1
  , 1, 1, 1, 1, 1, 1, 2, 1, 1, 1, 1, 1, 1, 1, 2, 1
  , 1, 1, 1, 1, 1, 1, 2, 1, 1, 1, 1, 1, 1, 1, 2, 1
  , 2, 2, 2, 2, 2, 2, 0, 2, 1, 1, 1, 1, 1, 1, 2, 1
  , 1, 1, 1, 1, 1, 1, 2, 1, 1, 1, 1, 1, 1, 1, 2, 1
  , 1, 1, 1, 1, 1, 1, 2, 1, 1, 1, 1, 1, 1, 1, 2, 1
  , 1, 1, 1, 1, 1, 1, 2, 1, 1, 1, 1, 1, 1, 1, 2, 1
  , 1, 1, 1, 1, 1, 1, 2, 1, 1, 1, 1, 1, 1, 1, 2, 1
  , 2, 3, 3, 4, 3, 4, 2, 4, 2, 4, 3, 0, 3, 6, 2, 4
  , 2, 3, 3, 0, 3, 4, 2, 4, 2, 4, 3, 0, 3, 0, 2, 4
  , 3, 3, 2, 0, 0, 4, 2, 4, 4, 1, 4, 0, 0, 0, 2, 4
  , 3, 3, 2, 1, 0, 4, 2, 4, 3, 2, 4, 1, 0, 0, 2, 4 ]

/-- Byte-addressed memory seen through the bus, as a total map from
addresses to bytes.  The Memory trait itself lives in the module mem.rs,
which is not among the sources; reads and writes of single bytes are the
trait's get/set. -/
def Mem : Type :=
  Nat → Nat

/-- Pointwise update of one memory cell (Memory::set). -/
def Mem.set (m : Mem) (a v : Nat) : Mem :=
  fun x => if x = a then v else m x

/-- Modelled from the spec: Memory::set_word, the 16-bit store used by the
stack push (mem.rs is not among the sources); the Game Boy bus is
little-endian, so the low byte goes to the address and the high byte to its
successor, with 16-bit address wraparound. -/
def Mem.set_word (m : Mem) (a v : Nat) : Mem :=
  (m.set a (v % 256)).set ((a + 1) % 0x10000) ((v >>> 8) % 256)

/-- CPU interpreter state, from cpu.rs (struct Cpu); the memory handle is
passed explicitly instead of being stored behind an Rc RefCell. -/
structure Cpu where
  reg : Register
  halted : Bool
  ei : Bool

/-- Cpu::power_up: fresh register file, not halted, interrupts enabled. -/
def Cpu.power_up (term : Term) : Cpu :=
  { reg := Register.power_up term, halted := false, ei := true }

/-- Cpu::stack_add: decrement the stack pointer by two (u16 wrapping) and
store the word there. -/
def Cpu.stack_add (c : Cpu) (m : Mem) (insert : Nat) : Cpu × Mem :=
  let sp := (c.reg.stack_pointer + 0x10000 - 2) % 0x10000
  ({ c with reg := { c.reg with stack_pointer := sp } }, m.set_word sp insert)

/-- The trailing-zero count of a byte (u8::trailing_zeros): the index of the
lowest set bit, or 8 when the low eight bits are all clear. -/
def trailing_zeros8 (v : Nat) : Nat :=
  if v &&& 0x01 != 0 then 0
  else if v &&& 0x02 != 0 then 1
  else if v &&& 0x04 != 0 then 2
  else if v &&& 0x08 != 0 then 3
  else if v &&& 0x10 != 0 then 4
  else if v &&& 0x20 != 0 then 5
  else if v &&& 0x40 != 0 then 6
  else if v &&& 0x80 != 0 then 7
  else 8

/-- Cpu::hi, the interrupt-dispatch phase of a step: with the processor
neither halted nor interrupt-enabled it contributes nothing; otherwise it
reads IF (0xFF0F) and IE (0xFFFF), and when some line is both requested and
enabled it clears halted, and if the global enable flag is set it clears it,
clears the lowest pending bit of IF, pushes the program counter and jumps to
the bit's vector, returning a cost of 4 machine cycles. -/
def Cpu.hi (c : Cpu) (m : Mem) : Cpu × Mem × Nat :=
  if !c.halted && !c.ei then (c, m, 0)
  else
    let intf := m 0xFF0F
    let inte := m 0xFFFF
    let ii := intf &&& inte
    if ii = 0x00 then (c, m, 0)
    else
      let c1 : Cpu := { c with halted := false }
      if !c1.ei then (c1, m, 0)
      else
        let c2 : Cpu := { c1 with ei := false }
        let n := trailing_zeros8 ii
        let intf2 := intf &&& ((1 <<< n) ^^^ 0xFF)
        let m1 := m.set 0xFF0F intf2
        let (c3, m2) := c2.stack_add m1 c2.reg.program_counter
        let c4 : Cpu := { c3 with reg := { c3.reg with program_counter := 0x0040 ||| (n <<< 3) } }
        (c4, m2, 4)

/-- The ecycle computation at the end of Cpu::ex: the extra machine cycles
added for conditional branches, exactly as keyed in the source (every arm,
including the carry-conditioned opcodes, tests the Zero flag). -/
def ecycle (r : Register) (opcode : Nat) : Nat :=
  match opcode with
  | 0x20 | 0x30 => if r.get_flag .ZeroFlag then 0x00 else 0x01
  | 0x28 | 0x38 => if r.get_flag .ZeroFlag then 0x01 else 0x00
  | 0xc0 | 0xd0 => if r.get_flag .ZeroFlag then 0x00 else 0x03
  | 0xc8 | 0xcc | 0xd8 | 0xdc => if r.get_flag .ZeroFlag then 0x03 else 0x00
  | 0xc2 | 0xd2 => if r.get_flag .ZeroFlag then 0x00 else 0x01
  | 0xca | 0xda => if r.get_flag .ZeroFlag then 0x01 else 0x00
  | 0xc4 | 0xd4 => if r.get_flag .ZeroFlag then 0x00 else 0x03
  | _ => 0x00

/-- The branch condition evaluated inside the conditional-branch arms of
Cpu::ex (JR IF, JP IF, CALL IF, RET IF): not-zero / zero / not-carry / carry,
per opcode. -/
def branch_cond (r : Register) (opcode : Nat) : Bool :=
  match opcode with
  | 0x20 | 0xc2 | 0xc4 | 0xc0 => !r.get_flag .ZeroFlag
  | 0x28 | 0xca | 0xcc | 0xc8 => r.get_flag .ZeroFlag
  | 0x30 | 0xd2 | 0xd4 | 0xd0 => !r.get_flag .CarryFlag
  | 0x38 | 0xda | 0xdc | 0xd8 => r.get_flag .CarryFlag
  | _ => false

/-- The arms of Cpu::ex needed by the claims: the opcode byte is fetched at
the program counter (which post-increments), and the instruction cost is
the OP_CYCLES entry plus the ecycle extra.  Arms of the 512-entry dispatch
not needed by any claim are left unmodelled and return none. -/
def Cpu.ex (c : Cpu) (m : Mem) : Option (Cpu × Mem × Nat) :=
  let opcode := m c.reg.program_counter
  let c1 : Cpu := { c with reg := { c.reg with program_counter := (c.reg.program_counter + 1) % 0x10000 } }
  match opcode with
  | 0x00 => some (c1, m, OP_CYCLES.getD 0x00 0 + ecycle c1.reg 0x00)
  | 0xe8 =>
      let r := c1.reg.alu_add_sp (m c1.reg.program_counter)
      some ({ c1 with reg := r }, m, OP_CYCLES.getD 0xe8 0 + ecycle r 0xe8)
  | 0xf8 =>
      let r := c1.reg.ld_hl_sp (m c1.reg.program_counter)
      some ({ c1 with reg := r }, m, OP_CYCLES.getD 0xf8 0 + ecycle r 0xf8)
  | _ => none

/-- Cpu::next, one CPU step: the interrupt-dispatch cost if nonzero, else
the cost of a NOP when halted, else one executed instruction; the
machine-cycle count is multiplied by 4 into clock cycles. -/
def Cpu.next (c : Cpu) (m : Mem) : Option (Cpu × Mem × Nat) :=
  let (c1, m1, ic) := c.hi m
  if ic ≠ 0 then some (c1, m1, ic * 4)
  else if c1.halted then some (c1, m1, OP_CYCLES.getD 0x00 0 * 4)
  else (c1.ex m1).map (fun s => (s.1, s.2.1, s.2.2 * 4))

/-- The MBC1 banking-mode flag, from cartridge.rs (enum BankMode). -/
inductive BankMode
  | Rom
  | Ram
deriving DecidableEq

/-- The MBC1 mapper state, from cartridge.rs (struct Mbc1); the save path is
omitted, persistence being file input and output outside these claims. -/
structure Mbc1 where
  rom : List Nat
  ram : List Nat
  bank_mode : BankMode
  bank : Nat
  ram_enabled : Bool

/-- Mbc1::rom_bank: the effective switchable ROM bank, masked per mode. -/
def Mbc1.rom_bank (c : Mbc1) : Nat :=
  match c.bank_mode with
  | .Rom => c.bank &&& 0x7F
  | .Ram => c.bank &&& 0x1F

/-- Mbc1::ram_bank: the effective RAM bank, zero in ROM mode. -/
def Mbc1.ram_bank (c : Mbc1) : Nat :=
  match c.bank_mode with
  | .Rom => 0x00
  | .Ram => (c.bank &&& 0x60) >>> 5

/-- Mbc1::get (impl Memory): low region reads the rom array by address; the
0x4000 region computes rom_bank times 0x2000 plus the address minus 0xA000
and indexes the ram array, exactly as the source does; the usize
subtraction underflows (a panic, embedded as none) whenever the sum is
below 0xA000, and an out-of-range index is likewise none. -/
def Mbc1.get (c : Mbc1) (a : Nat) : Option Nat :=
  if a ≤ 0x3FFF then c.rom[a]?
  else if a ≤ 0x7FFF then
    if c.rom_bank * 0x2000 + a < 0xA000 then none
    else c.ram[c.rom_bank * 0x2000 + a - 0xA000]?
  else if 0xA000 ≤ a ∧ a ≤ 0xBFFF then
    if c.ram_enabled then c.ram[c.ram_bank * 0x2000 + a - 0xA000]?
    else some 0x00
  else some 0x00

/-- Mbc1::set (impl Memory): RAM writes when enabled, the RAM-enable latch,
the 5-bit ROM-bank select with zero redirected to one, the upper-bank arm
(whose source statement computes a value but never assigns it, so the state
is unchanged), and the banking-mode switch whose other values panic. -/
def Mbc1.set (c : Mbc1) (a v : Nat) : Option Mbc1 :=
  if 0xA000 ≤ a ∧ a ≤ 0xBFFF then
    if c.ram_enabled then
      let i := c.ram_bank * 0x2000 + a - 0xA000
      if i < c.ram.length then some { c with ram := c.ram.set i v } else none
    else some c
  else if a ≤ 0x1FFF then some { c with ram_enabled := v &&& 0x0F == 0x0A }
  else if a ≤ 0x3FFF then
    let n := v &&& 0x1F
    let n1 := if n = 0x00 then 0x01 else n
    some { c with bank := (c.bank &&& 0x60) ||| n1 }
  else if a ≤ 0x5FFF then
    some c
  else if a ≤ 0x7FFF then
    if v = 0x00 then some { c with bank_mode := .Rom }
    else if v = 0x01 then some { c with bank_mode := .Ram }
    else none
  else some c

/-- The MBC2 mapper state, from cartridge.rs (struct Mbc2). -/
structure Mbc2 where
  rom : List Nat
  ram : List Nat
  rom_bank : Nat
  ram_enable : Bool

/-- Mbc2::get (impl Memory). -/
def Mbc2.get (c : Mbc2) (a : Nat) : Option Nat :=
  if a ≤ 0x3FFF then c.rom[a]?
  else if a ≤ 0x7FFF then c.rom[c.rom_bank * 0x4000 + a - 0x4000]?
  else if 0xA000 ≤ a ∧ a ≤ 0xA1FF then
    if c.ram_enable then c.ram[a - 0xA000]? else some 0x00
  else some 0x00

/-- Mbc2::set (impl Memory): the written value is masked to its low nibble
first; the RAM-enable latch takes effect only when address bit 8 is clear,
and the ROM-bank select only when address bit 8 is set, storing the masked
value directly (a write of zero keeps bank zero).  The source match has no
arm for the remaining addresses; they leave the state unchanged. -/
def Mbc2.set (c : Mbc2) (a v : Nat) : Option Mbc2 :=
  let v1 := v &&& 0x0F
  if 0xA000 ≤ a ∧ a ≤ 0xA1FF then
    if c.ram_enable then
      if a - 0xA000 < c.ram.length then some { c with ram := c.ram.set (a - 0xA000) v1 }
      else none
    else some c
  else if a ≤ 0x1FFF then
    if a &&& 0x0100 = 0 then some { c with ram_enable := v1 == 0x0A } else some c
  else if 0x2000 ≤ a ∧ a ≤ 0x3FFF then
    if a &&& 0x0100 ≠ 0 then some { c with rom_bank := v1 } else some c
  else some c

/-- The MBC3 mapper state, from cartridge.rs (struct Mbc3).  The RTC
sub-entity samples the wall clock; its registers are outside every claim,
so accesses that reach it are embedded as none rather than modelled. -/
structure Mbc3 where
  rom : List Nat
  ram : List Nat
  rom_bank : Nat
  ram_bank : Nat
  ram_enable : Bool

/-- Mbc3::get (impl Memory). -/
def Mbc3.get (c : Mbc3) (a : Nat) : Option Nat :=
  if a ≤ 0x3FFF then c.rom[a]?
  else if a ≤ 0x7FFF then c.rom[c.rom_bank * 0x4000 + a - 0x4000]?
  else if 0xA000 ≤ a ∧ a ≤ 0xBFFF then
    if c.ram_enable then
      if c.ram_bank ≤ 0x03 then c.ram[c.ram_bank * 0x2000 + a - 0xA000]?
      else none
    else some 0x00
  else some 0x00

/-- Mbc3::set (impl Memory): 7-bit ROM-bank select with zero redirected to
one, 4-bit RAM-bank select, RAM-enable latch; the RTC trigger and RTC
register writes are embedded as none. -/
def Mbc3.set (c : Mbc3) (a v : Nat) : Option Mbc3 :=
  if 0xA000 ≤ a ∧ a ≤ 0xBFFF then
    if c.ram_enable then
      if c.ram_bank ≤ 0x03 then
        let i := c.ram_bank * 0x2000 + a - 0xA000
        if i < c.ram.length then some { c with ram := c.ram.set i v } else none
      else none
    else some c
  else if a ≤ 0x1FFF then some { c with ram_enable := v &&& 0x0F == 0x0A }
  else if a ≤ 0x3FFF then
    let n := v &&& 0x7F
    some { c with rom_bank := if n = 0x00 then 0x01 else n }
  else if a ≤ 0x5FFF then some { c with ram_bank := v &&& 0x0F }
  else if a ≤ 0x7FFF then
    if v &&& 0x01 ≠ 0 then none else some c
  else some c

/-- The MBC5 mapper state, from cartridge.rs (struct Mbc5). -/
structure Mbc5 where
  rom : List Nat
  ram : List Nat
  rom_bank : Nat
  ram_bank : Nat
  ram_enable : Bool

/-- Mbc5::get (impl Memory). -/
def Mbc5.get (c : Mbc5) (a : Nat) : Option Nat :=
  if a ≤ 0x3FFF then c.rom[a]?
  else if a ≤ 0x7FFF then c.rom[c.rom_bank * 0x4000 + a - 0x4000]?
  else if 0xA000 ≤ a ∧ a ≤ 0xBFFF then
    if c.ram_enable then c.ram[c.ram_bank * 0x2000 + a - 0xA000]?
    else some 0x00
  else some 0x00

/-- Mbc5::set (impl Memory): the low eight ROM-bank bits are stored directly
from the written byte (no zero-to-one redirection), the ninth bit through
the 0x3000 window, plus the RAM-bank select and the RAM-enable latch. -/
def Mbc5.set (c : Mbc5) (a v : Nat) : Option Mbc5 :=
  if 0xA000 ≤ a ∧ a ≤ 0xBFFF then
    if c.ram_enable then
      let i := c.ram_bank * 0x2000 + a - 0xA000
      if i < c.ram.length then some { c with ram := c.ram.set i v } else none
    else some c
  else if a ≤ 0x1FFF then some { c with ram_enable := v &&& 0x0F == 0x0A }
  else if a ≤ 0x2FFF then some { c with rom_bank := (c.rom_bank &&& 0x100) ||| v }
  else if a ≤ 0x3FFF then some { c with rom_bank := (c.rom_bank &&& 0x0FF) ||| ((v &&& 0x01) <<< 8) }
  else if a ≤ 0x5FFF then some { c with ram_bank := v &&& 0x0F }
  else some c

/-- The HuC1 mapper, from cartridge.rs (struct HuC1): a wrapper delegating
every access to an inner MBC1. -/
structure HuC1 where
  cart : Mbc1

/-- HuC1::get (impl Memory): delegates to the inner MBC1. -/
def HuC1.get (h : HuC1) (a : Nat) : Option Nat :=
  h.cart.get a

/-- HuC1::set (impl Memory): delegates to the inner MBC1. -/
def HuC1.set (h : HuC1) (a v : Nat) : Option HuC1 :=
  (h.cart.set a v).map (fun c => { cart := c })

/-- The fixed 48-byte boot logo constant NINTENDO_LOGO from cartridge.rs. -/
def NINTENDO_LOGO : List Nat :=
  [ 0xCE, 0xED, 0x66, 0x66, 0xCC, 0x0D, 0x00, 0x0B, 0x03, 0x73, 0x00, 0x83, 0x00, 0x0C, 0x00, 0x0D, 0x00, 0x08, 0x11
  , 0x1F, 0x88, 0x89, 0x00, 0x0E, 0xDC, 0xCC, 0x6E, 0xE6, 0xDD, 0xDD, 0xD9, 0x99, 0xBB, 0xBB, 0x67, 0x63, 0x6E, 0x0E
  , 0xEC, 0xCC, 0xDD, 0xDC, 0x99, 0x9F, 0xBB, 0xB9, 0x33, 0x3E ]

/-- The logo validation ensure_logo from cartridge.rs, over the cartridge's
byte-read function: for each index i in 0..48 it compares the byte at
address 0x0104 + 1 (the source writes the literal 1, not the loop index i)
against the i-th logo constant, and the load panics unless every comparison
succeeds; true means the check passes. -/
def ensure_logo (cart : Nat → Nat) : Bool :=
  (List.range 48).all (fun i => cart (0x0104 + 1) == NINTENDO_LOGO.getD i 0)

/-- A cartridge image whose 48 logo bytes at 0x0104 through 0x0133 agree
with NINTENDO_LOGO position by position, and which reads zero elsewhere. -/
def logoCart : Nat → Nat :=
  fun a => if 0x0104 ≤ a ∧ a ≤ 0x0133 then NINTENDO_LOGO.getD (a - 0x0104) 0 else 0x00

/-- A memory image with interrupt request 0x13 (VBlank, LCD and Joypad
lines) and every interrupt enabled, zero elsewhere. -/
def m_intr : Mem :=
  fun a => if a = 0xFF0F then 0x13 else if a = 0xFFFF then 0xFF else 0x00

/-- A concrete running CPU about to service an interrupt. -/
def cpu_intr : Cpu :=
  { reg := { Register.zero with stack_pointer := 0xFFFE, program_counter := 0x1234 }
  , halted := false, ei := true }

/-- A memory image reading zero everywhere (in particular its reset vector
holds opcode 0x00 and no interrupt is requested or enabled). -/
def m_zero : Mem :=
  fun _ => 0x00

/-- A register file whose stack pointer is 0x000F, for the signed-add
flag comparison. -/
def reg_sp15 : Register :=
  { Register.zero with stack_pointer := 0x000F }

/-- Flag register with only Carry set. -/
def reg_carry : Register :=
  { Register.zero with f_reg := 0x10 }

/-- Flag register with only Zero set. -/
def reg_zeroflag : Register :=
  { Register.zero with f_reg := 0x80 }

/-- A fresh MBC1 state as built by Mbc1::power_up (bank 1, ROM mode, RAM
disabled). -/
def mbc1_example : Mbc1 :=
  { rom := [], ram := [], bank_mode := .Rom, bank := 0x01, ram_enabled := false }

/-- A fresh MBC2 state as built by Mbc2::power_up. -/
def mbc2_example : Mbc2 :=
  { rom := [], ram := [], rom_bank := 0x01, ram_enable := false }

/-- A fresh MBC3 state as built by Mbc3::power_up. -/
def mbc3_example : Mbc3 :=
  { rom := [], ram := [], rom_bank := 0x01, ram_bank := 0x00, ram_enable := false }

/-- A fresh MBC5 state as built by Mbc5::power_up. -/
def mbc5_example : Mbc5 :=
  { rom := [], ram := [], rom_bank := 0x01, ram_bank := 0x00, ram_enable := false }

/-- A fresh HuC1 state wrapping the fresh MBC1. -/
def huc1_example : HuC1 :=
  { cart := mbc1_example }

theorem set_flag_a_reg (r : Register) (f : Flags) (v : Bool) :
    (r.set_flag f v).a_reg = r.a_reg := by
  unfold Register.set_flag
  split <;> rfl

theorem set_flag_sp (r : Register) (f : Flags) (v : Bool) :
    (r.set_flag f v).stack_pointer = r.stack_pointer := by
  unfold Register.set_flag
  split <;> rfl

theorem set_flag_pc (r : Register) (f : Flags) (v : Bool) :
    (r.set_flag f v).program_counter = r.program_counter := by
  unfold Register.set_flag
  split <;> rfl

theorem tb_mod256 (y k : Nat) : (y % 256).testBit k = (decide (k < 8) && y.testBit k) := by
  rw [show (256 : Nat) = 2 ^ 8 from rfl, Nat.testBit_mod_two_pow]

theorem or_shift_is_and_mask (x : Nat) :
    (((x >>> 8) % 256) <<< 8) ||| (x &&& 0x00F0) = x &&& 0xFFF0 := by
  apply Nat.eq_of_testBit_eq
  intro i
  rcases Nat.lt_or_ge i 16 with hi | hi
  · interval_cases i <;>
      (simp only [Nat.testBit_or, Nat.testBit_and, Nat.testBit_shiftLeft, tb_mod256,
        Nat.testBit_shiftRight]
       simp [Nat.testBit])
  · have e1 : Nat.testBit ((x >>> 8) % 256) (i - 8) = false := by
      apply Nat.testBit_lt_two_pow
      have h8 : (8 : Nat) ≤ i - 8 := by omega
      calc (x >>> 8) % 256 < 256 := Nat.mod_lt _ (by norm_num)
        _ = 2 ^ 8 := rfl
        _ ≤ 2 ^ (i - 8) := Nat.pow_le_pow_right (by norm_num) h8
    have e2 : Nat.testBit (0x00F0 : Nat) i = false := by
      apply Nat.testBit_lt_two_pow
      calc (0x00F0 : Nat) < 2 ^ 16 := by norm_num
        _ ≤ 2 ^ i := Nat.pow_le_pow_right (by norm_num) hi
    have e3 : Nat.testBit (0xFFF0 : Nat) i = false := by
      apply Nat.testBit_lt_two_pow
      calc (0xFFF0 : Nat) < 2 ^ 16 := by norm_num
        _ ≤ 2 ^ i := Nat.pow_le_pow_right (by norm_num) hi
    simp [Nat.testBit_or, Nat.testBit_and, Nat.testBit_shiftLeft, e1, e2, e3]

set_option maxRecDepth 2000 in
theorem addFlagBytes_carry_half : ∀ f < 256, ∀ c h z : Bool,
    ((addFlagBytes f c h z &&& 0x10 != 0) = c) ∧ ((addFlagBytes f c h z &&& 0x20 != 0) = h) := by
  decide

set_option maxRecDepth 2000 in
theorem trailing_zeros8_lowest : ∀ v < 256, v ≠ 0 →
    trailing_zeros8 v ≤ 7 ∧ Nat.testBit v (trailing_zeros8 v) = true ∧
      ∀ k < trailing_zeros8 v, Nat.testBit v k = false := by
  decide

set_option maxRecDepth 2000 in
theorem and_not_bit_clears : ∀ f < 256, ∀ n ≤ 7,
    Nat.testBit (f &&& ((1 <<< n) ^^^ 0xFF)) n = false ∧
      ∀ k ≤ 7, k ≠ n → Nat.testBit (f &&& ((1 <<< n) ^^^ 0xFF)) k = Nat.testBit f k := by
  decide

set_option maxRecDepth 2000 in
theorem mbc1_bank_or_one : ∀ b < 256,
    (((b &&& 0x60) ||| 1) &&& 0x7F ≠ 0) ∧ (((b &&& 0x60) ||| 1) &&& 0x1F = 1) := by
  decide

theorem vector_or_eq_add : ∀ n ≤ 7, 0x0040 ||| (n <<< 3) = 0x0040 + n * 8 := by
  decide

theorem alu_add_f_reg (r : Register) (v : Nat) :
    (r.alu_add v).f_reg =
      addFlagBytes r.f_reg (decide (r.a_reg + v > 0xFF))
        (decide ((r.a_reg &&& 0x0F) + (v &&& 0x0F) > 0x0F))
        (decide ((r.a_reg + v) % 256 = 0x00)) := by
  unfold Register.alu_add Register.set_flag addFlagBytes
  simp only [Flags.orgin, Flags.inverse, apply_ite Register.f_reg]
  simp

set_option maxRecDepth 2000 in
theorem testBit8_of_lt : ∀ s < 512, Nat.testBit s 8 = decide (s > 255) := by
  decide

theorem testBit4_of_lt : ∀ t < 32, Nat.testBit t 4 = decide (t > 15) := by
  decide

/-- C3: for byte values a and b, alu_add b followed by alu_sub b restores
the accumulator, and the Carry and HalfCarry flags left by the add are the
carry-out of bit 7 and of bit 3 of the widened sums (bit 8 of a + b, and
bit 4 of the low-nibble sum). -/
theorem alu_add_sub_roundtrip (r : Register) (v : Nat)
    (ha : r.a_reg < 256) (hv : v < 256) (hf : r.f_reg < 256) :
    ((r.alu_add v).alu_sub v).a_reg = r.a_reg
    ∧ (r.alu_add v).get_flag .CarryFlag = Nat.testBit (r.a_reg + v) 8
    ∧ (r.alu_add v).get_flag .HalfCarryFlag = Nat.testBit ((r.a_reg &&& 0x0F) + (v &&& 0x0F)) 4 := by
  have hb := alu_add_f_reg r v
  have key := addFlagBytes_carry_half r.f_reg hf (decide (r.a_reg + v > 0xFF))
    (decide ((r.a_reg &&& 0x0F) + (v &&& 0x0F) > 0x0F)) (decide ((r.a_reg + v) % 256 = 0x00))
  refine ⟨?_, ?_, ?_⟩
  · show ((r.a_reg + v) % 256 + 0x100 - v % 0x100) % 0x100 = r.a_reg
    omega
  · unfold Register.get_flag
    simp only [Flags.orgin]
    rw [hb, key.1, testBit8_of_lt (r.a_reg + v) (by omega)]
  · unfold Register.get_flag
    simp only [Flags.orgin]
    have h1 : r.a_reg &&& 0x0F ≤ 0x0F := Nat.and_le_right
    have h2 : v &&& 0x0F ≤ 0x0F := Nat.and_le_right
    rw [hb, key.2, testBit4_of_lt ((r.a_reg &&& 0x0F) + (v &&& 0x0F)) (by omega)]

theorem alu_add_sub_roundtrip_witness :
    ((Register.alu_add { Register.zero with a_reg := 200, f_reg := 0xB0 } 100).alu_sub 100).a_reg = 200
    ∧ (Register.alu_add { Register.zero with a_reg := 200, f_reg := 0xB0 } 100).get_flag .CarryFlag = true
    ∧ (Register.alu_add { Register.zero with a_reg := 200, f_reg := 0xB0 } 100).get_flag .HalfCarryFlag
        = false := by
  exact alu_add_sub_roundtrip { Register.zero with a_reg := 200, f_reg := 0xB0 } 100
    (by decide) (by decide) (by decide)

/-- C4: for every 16-bit value x, set_af x followed by parse_af returns
x masked with 0xFFF0; the low nibble of F is forced to zero by the write. -/
theorem set_af_then_parse_af (r : Register) (x : Nat) (hx : x < 0x10000) :
    (r.set_af x).parse_af = x &&& 0xFFF0 := by
  show (((x >>> 8) % 256) <<< 8) ||| (x &&& 0x00F0) = x &&& 0xFFF0
  exact or_shift_is_and_mask x

theorem set_af_then_parse_af_witness :
    (Register.zero.set_af 0xABCD).parse_af = 0xABC0 := by
  exact set_af_then_parse_af Register.zero 0xABCD (by decide)

/-- C10: alu_cp leaves the four flags exactly as alu_sub would leave them
(the flag registers agree, hence every flag read agrees) while the
accumulator keeps its original value. -/
theorem alu_cp_flags_match_sub (r : Register) (value : Nat) :
    (∀ f : Flags, (r.alu_cp value).get_flag f = (r.alu_sub value).get_flag f)
    ∧ (r.alu_cp value).f_reg = (r.alu_sub value).f_reg
    ∧ (r.alu_cp value).a_reg = r.a_reg := by
  exact ⟨fun _ => rfl, rfl, rfl⟩

/-- C8: at stack pointer 0x000F with immediate byte 0x01, the low-nibble sum
exceeds 0x0F, and the 0xF8 arm sets HalfCarry, but alu_add_sp (opcode 0xE8)
leaves it clear: its comparison bound is 0x00FF in the source, so its
HalfCarry never fires; the remaining flags of the two opcodes agree. -/
theorem add_sp_halfcarry_diverges :
    (reg_sp15.alu_add_sp 0x01).get_flag .HalfCarryFlag = false
    ∧ (reg_sp15.ld_hl_sp 0x01).get_flag .HalfCarryFlag = true
    ∧ ((reg_sp15.stack_pointer &&& 0x000F) + (0x01 &&& 0x000F) > 0x000F)
    ∧ (reg_sp15.alu_add_sp 0x01).get_flag .CarryFlag = (reg_sp15.ld_hl_sp 0x01).get_flag .CarryFlag
    ∧ (reg_sp15.alu_add_sp 0x01).get_flag .ZeroFlag = false
    ∧ (reg_sp15.alu_add_sp 0x01).get_flag .SubtractionFlag = false := by
  decide

/-- C2: for the carry-conditioned relative jump 0x38 (JR C, d8) the source
keys the extra machine cycle on the Zero flag, not the Carry flag: with
Carry set and Zero clear the branch is taken but no extra cycle is charged,
and with Zero set and Carry clear the branch is not taken yet the extra
cycle is charged; the fixed table cost of 0x38 is 2 machine cycles. -/
theorem carry_branch_extra_cost_uses_zero_flag :
    branch_cond reg_carry 0x38 = true
    ∧ ecycle reg_carry 0x38 = 0x00
    ∧ branch_cond reg_zeroflag 0x38 = false
    ∧ ecycle reg_zeroflag 0x38 = 0x01
    ∧ OP_CYCLES.getD 0x38 0 = 2 := by
  decide

/-- C7: a cartridge whose 48 logo bytes match the constant position by
position is nevertheless rejected by ensure_logo, because the check reads
the fixed address 0x0104 + 1 instead of 0x0104 + i. -/
theorem ensure_logo_rejects_matching_logo :
    ((List.range 48).all (fun i => logoCart (0x0104 + i) == NINTENDO_LOGO.getD i 0)) = true
    ∧ ensure_logo logoCart = false := by
  decide

/-- C5: on a fresh MBC1 (bank 1), a read of 0x4000 does not return the ROM
byte of bank 1: the source's index computation rom_bank times 0x2000 plus
the address minus 0xA000 underflows (a panic, embedded as none), for every
ROM and RAM content; the fixed-bank read of 0x0000 does return rom[0]. -/
theorem mbc1_switchable_read_misses_rom (rom ram : List Nat) :
    Mbc1.get { rom := rom, ram := ram, bank_mode := .Rom, bank := 0x01, ram_enabled := false } 0x4000
      = none
    ∧ Mbc1.get { rom := rom, ram := ram, bank_mode := .Rom, bank := 0x01, ram_enabled := false } 0x0000
      = rom[0x0000]? := by
  constructor
  · norm_num [Mbc1.get, Mbc1.rom_bank]
  · norm_num [Mbc1.get]

/-- C6 (counterexample): a ROM-bank-select write of 0 does not alias to bank
1 on every banked variant: on MBC5 (write 0 to 0x2000) and on MBC2 (write 0
to 0x2100, address bit 8 set) the effective ROM bank becomes 0. -/
theorem mbc5_mbc2_bank_zero_stays_zero :
    Mbc5.set mbc5_example 0x2000 0x00
      = some { rom := [], ram := [], rom_bank := 0x00, ram_bank := 0x00, ram_enable := false }
    ∧ Mbc2.set mbc2_example 0x2100 0x00
      = some { rom := [], ram := [], rom_bank := 0x00, ram_enable := false } := by
  exact ⟨rfl, rfl⟩

/-- C6 (amended): a ROM-bank-select write of 0 yields an effective bank that
is never 0 on MBC1, MBC3 and HuC1 (MBC1 redirects the written select bits to
1, MBC3 sets the bank to 1); MBC2 and MBC5 instead store the written value,
so there a write of 0 selects bank 0, as the counterexample shows. -/
theorem rom_bank_zero_write_aliases_to_one (c1 : Mbc1) (c3 : Mbc3) (h : HuC1) (a : Nat)
    (ha1 : 0x2000 ≤ a) (ha2 : a ≤ 0x3FFF) (hb : c1.bank < 256) (hb2 : h.cart.bank < 256) :
    (∃ c', c1.set a 0x00 = some c' ∧ c'.rom_bank ≠ 0)
    ∧ (∃ c', c3.set a 0x00 = some c' ∧ c'.rom_bank = 1)
    ∧ (∃ h', h.set a 0x00 = some h' ∧ h'.cart.rom_bank ≠ 0) := by
  have hnramw : ¬(0xA000 ≤ a ∧ a ≤ 0xBFFF) := by omega
  have hnlatch : ¬(a ≤ 0x1FFF) := by omega
  have hset1 : ∀ c : Mbc1, c.set a 0x00 = some { c with bank := (c.bank &&& 0x60) ||| 1 } := by
    intro c
    unfold Mbc1.set
    rw [if_neg hnramw, if_neg hnlatch, if_pos ha2]
    norm_num
  have hrb : ∀ c : Mbc1, c.bank < 256 → Mbc1.rom_bank { c with bank := (c.bank &&& 0x60) ||| 1 } ≠ 0 := by
    intro c hc
    have hm := mbc1_bank_or_one c.bank hc
    unfold Mbc1.rom_bank
    cases c.bank_mode
    · exact hm.1
    · simp [hm.2]
  refine ⟨⟨_, hset1 c1, hrb c1 hb⟩, ⟨{ c3 with rom_bank := 1 }, ?_, rfl⟩, ?_⟩
  · unfold Mbc3.set
    rw [if_neg hnramw, if_neg hnlatch, if_pos ha2]
    norm_num
  · refine ⟨{ cart := { h.cart with bank := (h.cart.bank &&& 0x60) ||| 1 } }, ?_, hrb h.cart hb2⟩
    unfold HuC1.set
    rw [hset1 h.cart]
    rfl

theorem rom_bank_zero_write_aliases_to_one_witness :
    (∃ c', mbc1_example.set 0x2000 0x00 = some c' ∧ c'.rom_bank ≠ 0)
    ∧ (∃ c', mbc3_example.set 0x2000 0x00 = some c' ∧ c'.rom_bank = 1)
    ∧ (∃ h', huc1_example.set 0x2000 0x00 = some h' ∧ h'.cart.rom_bank ≠ 0) := by
  exact rom_bank_zero_write_aliases_to_one mbc1_example mbc3_example huc1_example 0x2000
    (by decide) (by decide) (by decide) (by decide)

/-- C1 (counterexample): at a concrete state with the global
interrupt-enable flag set and pending lines IF = 0x13, IE = 0xFF, the
dispatch phase returns a cost of 4 machine cycles, not the 5 the claim
states. -/
theorem interrupt_dispatch_cost_is_four :
    cpu_intr.ei = true
    ∧ m_intr 0xFF0F &&& m_intr 0xFFFF ≠ 0
    ∧ (Cpu.hi cpu_intr m_intr).2.2 = 4
    ∧ (Cpu.hi cpu_intr m_intr).2.2 ≠ 5 := by
  decide

/-- C1 (amended): with the global interrupt-enable flag set and
pending = IF and IE nonzero (and the two stack cells clear of the interrupt
registers), the dispatch services the lowest set bit n of pending: it
clears the global enable flag, clears bit n of IF leaving the other IF bits
and IE unchanged, pushes the program counter (low byte at SP-2, high byte
at SP-1), jumps to 0x0040 + n*8, and charges 4 machine cycles (the same
unit as the opcode cost tables), not 5. -/
theorem interrupt_dispatch_services_lowest_pending (c : Cpu) (m : Mem)
    (hei : c.ei = true)
    (hIF : m 0xFF0F < 256) (hIE : m 0xFFFF < 256)
    (hpend : m 0xFF0F &&& m 0xFFFF ≠ 0)
    (hsp1 : 2 ≤ c.reg.stack_pointer) (hsp2 : c.reg.stack_pointer < 0x10000)
    (hpc : c.reg.program_counter < 0x10000)
    (hd1 : c.reg.stack_pointer - 2 ≠ 0xFF0F) (hd2 : c.reg.stack_pointer - 1 ≠ 0xFF0F)
    (hd3 : c.reg.stack_pointer - 2 ≠ 0xFFFF) (hd4 : c.reg.stack_pointer - 1 ≠ 0xFFFF) :
    Nat.testBit (m 0xFF0F &&& m 0xFFFF) (trailing_zeros8 (m 0xFF0F &&& m 0xFFFF)) = true
    ∧ (∀ k, k < trailing_zeros8 (m 0xFF0F &&& m 0xFFFF) →
        Nat.testBit (m 0xFF0F &&& m 0xFFFF) k = false)
    ∧ (Cpu.hi c m).1.ei = false
    ∧ (Cpu.hi c m).1.halted = false
    ∧ (Cpu.hi c m).1.reg.program_counter
        = 0x0040 + trailing_zeros8 (m 0xFF0F &&& m 0xFFFF) * 8
    ∧ (Cpu.hi c m).1.reg.stack_pointer = c.reg.stack_pointer - 2
    ∧ (Cpu.hi c m).2.1 (c.reg.stack_pointer - 2) = c.reg.program_counter % 256
    ∧ (Cpu.hi c m).2.1 (c.reg.stack_pointer - 1) = c.reg.program_counter / 256
    ∧ Nat.testBit ((Cpu.hi c m).2.1 0xFF0F) (trailing_zeros8 (m 0xFF0F &&& m 0xFFFF)) = false
    ∧ (∀ k, k ≤ 7 → k ≠ trailing_zeros8 (m 0xFF0F &&& m 0xFFFF) →
        Nat.testBit ((Cpu.hi c m).2.1 0xFF0F) k = Nat.testBit (m 0xFF0F) k)
    ∧ (Cpu.hi c m).2.1 0xFFFF = m 0xFFFF
    ∧ (Cpu.hi c m).2.2 = 4 := by
  have hiilt : m 0xFF0F &&& m 0xFFFF < 256 := lt_of_le_of_lt Nat.and_le_left hIF
  obtain ⟨htz7, htzbit, htzlow⟩ := trailing_zeros8_lowest (m 0xFF0F &&& m 0xFFFF) hiilt hpend
  have hsp' : (c.reg.stack_pointer + 0x10000 - 2) % 0x10000 = c.reg.stack_pointer - 2 := by
    omega
  have hrun : Cpu.hi c m =
      ({ reg := { c.reg with
            stack_pointer := (c.reg.stack_pointer + 0x10000 - 2) % 0x10000,
            program_counter :=
              0x0040 ||| (trailing_zeros8 (m 0xFF0F &&& m 0xFFFF) <<< 3) }
        , halted := false, ei := false },
       ((m.set 0xFF0F
            (m 0xFF0F &&& ((1 <<< trailing_zeros8 (m 0xFF0F &&& m 0xFFFF)) ^^^ 0xFF))).set
          ((c.reg.stack_pointer + 0x10000 - 2) % 0x10000) (c.reg.program_counter % 256)).set
         (((c.reg.stack_pointer + 0x10000 - 2) % 0x10000 + 1) % 0x10000)
         ((c.reg.program_counter >>> 8) % 256),
       4) := by
    unfold Cpu.hi Cpu.stack_add Mem.set_word
    rw [hei]
    simp [if_neg hpend]
  have hsp'1 : (c.reg.stack_pointer - 2 + 1) % 0x10000 = c.reg.stack_pointer - 1 := by
    omega
  obtain ⟨hclr, hkeep⟩ :=
    and_not_bit_clears (m 0xFF0F) hIF (trailing_zeros8 (m 0xFF0F &&& m 0xFFFF)) htz7
  have hdiv : c.reg.program_counter >>> 8 = c.reg.program_counter / 256 := by
    rw [Nat.shiftRight_eq_div_pow]
  refine ⟨htzbit, htzlow, ?_, ?_, ?_, ?_, ?_, ?_, ?_, ?_, ?_, ?_⟩
  · rw [hrun]
  · rw [hrun]
  · rw [hrun]
    exact vector_or_eq_add (trailing_zeros8 (m 0xFF0F &&& m 0xFFFF)) htz7
  · rw [hrun]
    exact hsp'
  · rw [hrun]
    simp only [Mem.set, hsp', hsp'1]
    split_ifs <;> first | rfl | omega
  · rw [hrun]
    simp only [Mem.set, hsp', hsp'1, hdiv]
    split_ifs <;> first | rfl | omega
  · rw [hrun]
    simp only [Mem.set, hsp', hsp'1]
    split_ifs <;> first | exact hclr | omega
  · intro k hk7 hkn
    rw [hrun]
    simp only [Mem.set, hsp', hsp'1]
    split_ifs <;> first | exact hkeep k hk7 hkn | omega
  · rw [hrun]
    simp only [Mem.set, hsp', hsp'1]
    split_ifs <;> first | rfl | omega
  · rw [hrun]

theorem interrupt_dispatch_services_lowest_pending_witness :
    (Cpu.hi cpu_intr m_intr).1.reg.program_counter
        = 0x0040 + trailing_zeros8 (m_intr 0xFF0F &&& m_intr 0xFFFF) * 8
    ∧ (Cpu.hi cpu_intr m_intr).2.1 0xFFFF = m_intr 0xFFFF
    ∧ (Cpu.hi cpu_intr m_intr).2.2 = 4 := by
  obtain ⟨h1, h2, h3, h4, h5, h6, h7, h8, h9, h10, h11, h12⟩ :=
    interrupt_dispatch_services_lowest_pending cpu_intr m_intr rfl (by decide) (by decide)
      (by decide) (by decide) (by decide) (by decide) (by decide) (by decide) (by decide)
      (by decide)
  exact ⟨h5, h11, h12⟩

/-- C9: register power-up sets the program counter to 0x0100 and the stack
pointer to 0xFFFE for every console variant, and a step from that state in
which no interrupt is pending and the fetched opcode is 0x00 (NOP) advances
only the program counter, to 0x0101, returning 4 clock cycles. -/
theorem power_up_nop_step (t : Term) (m : Mem)
    (hpend : m 0xFF0F &&& m 0xFFFF = 0) (hop : m 0x0100 = 0x00) :
    (Register.power_up t).program_counter = 0x0100
    ∧ (Register.power_up t).stack_pointer = 0xFFFE
    ∧ Cpu.next (Cpu.power_up t) m
        = some ({ reg := { Register.power_up t with program_counter := 0x0101 }
                , halted := false, ei := true }, m, 4) := by
  have h1 : Cpu.hi (Cpu.power_up t) m = (Cpu.power_up t, m, 0) := by
    unfold Cpu.hi
    simp [Cpu.power_up, hpend]
  have h2 : Cpu.ex (Cpu.power_up t) m
      = some ({ reg := { Register.power_up t with program_counter := 0x0101 }
              , halted := false, ei := true }, m, 1) := by
    unfold Cpu.ex
    rw [show (Cpu.power_up t).reg.program_counter = 0x0100 from rfl, hop]
    rfl
  refine ⟨rfl, rfl, ?_⟩
  unfold Cpu.next
  rw [h1]
  dsimp only
  rw [h2]
  norm_num [Cpu.power_up]

theorem power_up_nop_step_witness :
    (Register.power_up Term.GB).program_counter = 0x0100
    ∧ (Register.power_up Term.GB).stack_pointer = 0xFFFE
    ∧ Cpu.next (Cpu.power_up Term.GB) m_zero
        = some ({ reg := { Register.power_up Term.GB with program_counter := 0x0101 }
                , halted := false, ei := true }, m_zero, 4) := by
  exact power_up_nop_step Term.GB m_zero rfl rfl
